import Mathlib

/-!
Verification of the projection engine of the retirement-calculator repository.

The repository contains two scripts:

- src/retirement_calculator.py : the function compute_projection(age, salary,
  balance) with its inner helper project(start, contribs, rate), producing a
  frame with columns age, baseline, with_help (lines 251-291);
- src/Internal_Calc.py : compute_projection_one_line(age, salary, balance,
  cfg, model_return) with its helper build_pay_period_schedule (lines 266-304),
  and, appended at the end of the same file, a standalone script computing
  fv_contribs / fv_savings with an explicit zero-rate guard (lines 573-584).
  Both files also define parse_number (lines 245-249 and 243-247).

Modelling conventions of this shallow embedding:

- Python floats are modelled by exact rationals (ℚ).  All arithmetic
  identities below hold exactly over ℚ; the source's IEEE-754 arithmetic
  realises them up to rounding.
- Python's float division raises ZeroDivisionError on a zero denominator.
  Divisions whose denominator can be zero on the source's domain are modelled
  by pydiv, which returns none exactly when Python would raise; code whose
  result can be lost to such an exception is therefore Option-valued.
- The source computes the per-period growth factor as
  monthly_rate = (1 + rate) ** (1 / 12) (retirement_calculator.py line 276)
  and r_period = (1 + model_return) ** (1 / periods_per_year) - 1
  (Internal_Calc.py line 286).  These twelfth/period-th roots are irrational
  for the rates of interest, so the embedded engines take the per-period
  quantity (monthly_rate, respectively r_period) as their parameter; the
  source's annual rate r corresponds to monthly_rate ^ 12 = 1 + r, and
  r = 0 corresponds exactly to monthly_rate = 1 (r_period = 0).
- The cfg dictionary of compute_projection_one_line is passed as its derived
  values: target_age, salary_growth (= salary_growth_rate_pct / 100),
  annual_contrib_rate (= (employee_contrib_rate_pct + employer_contrib_rate_pct)
  / 100) and periods_per_year (= contributions_per_year).
-/

/-- Python float division: none exactly when the denominator is zero, where
Python raises ZeroDivisionError. -/
def pydiv (a b : ℚ) : Option ℚ :=
  if b = 0 then none else some (a / b)

/-- Constant salary_growth_rate = 0.03 of compute_projection
(retirement_calculator.py line 265). -/
def salary_growth_rate : ℚ := 3 / 100

/-- Constant contribution_rate = 0.078 + 0.046 of compute_projection
(retirement_calculator.py line 266). -/
def contribution_rate : ℚ := 78 / 1000 + 46 / 1000

/-- Constant r_no_help = 0.0819 of compute_projection
(retirement_calculator.py line 267). -/
def r_no_help : ℚ := 819 / 10000

/-- Constant r_help = r_no_help + 0.0332 of compute_projection
(retirement_calculator.py line 268). -/
def r_help : ℚ := r_no_help + 332 / 10000

/-- The loop body of project (retirement_calculator.py lines 280-283): for
each yearly contribution, total = total * monthly_factor
+ (yearly / 12) * contrib_multiplier, collecting the successive totals that
the source appends to out. -/
def projectLoop (monthly_factor contrib_multiplier total : ℚ) :
    List ℚ → List ℚ
  | [] => []
  | yearly :: rest =>
      (total * monthly_factor + yearly / 12 * contrib_multiplier) ::
        projectLoop monthly_factor contrib_multiplier
          (total * monthly_factor + yearly / 12 * contrib_multiplier) rest

/-- The helper project(start, contribs, rate) of compute_projection
(retirement_calculator.py lines 273-285).  The parameter monthly_rate is the
source's (1 + rate) ** (1 / 12); monthly_factor = monthly_rate ** 12 and
contrib_multiplier = (monthly_factor - 1) / (monthly_rate - 1), the division
being pydiv since its denominator is zero at a zero rate.  The source seeds
out = [start], appends one total per element of contribs, and returns
out[:num_points]. -/
def project (monthly_rate start : ℚ) (contribs : List ℚ) (num_points : ℕ) :
    Option (List ℚ) :=
  let monthly_factor := monthly_rate ^ 12
  (pydiv (monthly_factor - 1) (monthly_rate - 1)).map
    (fun contrib_multiplier =>
      (start :: projectLoop monthly_factor contrib_multiplier start contribs).take
        num_points)

/-- The salaries list of compute_projection (retirement_calculator.py
line 270): salary * (1 + salary_growth_rate) ** yr for yr in
range(num_points). -/
def salariesOf (salary : ℚ) (num_points : ℕ) : List ℚ :=
  (List.range num_points).map (fun yr => salary * (1 + salary_growth_rate) ^ yr)

/-- Result frame of compute_projection (retirement_calculator.py
lines 256-260 and 287-291): columns age, baseline, with_help. -/
structure ProjectionFrame where
  age : List ℤ
  baseline : List ℚ
  with_help : List ℚ
  deriving DecidableEq

/-- compute_projection(age, salary, balance) (retirement_calculator.py
lines 251-291) with target_age = 65.  The two monthly-rate parameters stand
for the source's (1 + r_no_help) ** (1 / 12) and (1 + r_help) ** (1 / 12).
If age >= 65 or salary <= 0 the single-point frame is returned; otherwise
annual_contribs = [s * contribution_rate for s in salaries] feeds project
for the baseline and the with_help scenario. -/
def computeProjection (mr_no_help mr_help : ℚ) (age : ℤ) (salary balance : ℚ) :
    Option ProjectionFrame :=
  if age ≥ 65 ∨ salary ≤ 0 then
    some { age := [age], baseline := [balance], with_help := [balance] }
  else
    let years := (65 - age).toNat
    let num_points := years + 1
    let annual_contribs := (salariesOf salary num_points).map
      (fun s => s * contribution_rate)
    (project mr_no_help balance annual_contribs num_points).bind (fun b =>
      (project mr_help balance annual_contribs num_points).map (fun w =>
        { age := (List.range num_points).map (fun k : ℕ => age + (k : ℤ)),
          baseline := b, with_help := w }))

/-- final_diff (retirement_calculator.py line 355): the last with_help value
minus the last baseline value of the displayed frame. -/
def final_diff (f : ProjectionFrame) : ℚ :=
  f.with_help.getLastD 0 - f.baseline.getLastD 0

/-- build_pay_period_schedule(annual_amount, periods_per_year)
(Internal_Calc.py lines 266-270): empty for non-positive periods_per_year,
otherwise periods_per_year equal installments annual_amount /
periods_per_year. -/
def build_pay_period_schedule (annual_amount : ℚ) (periods_per_year : ℤ) :
    List ℚ :=
  if periods_per_year ≤ 0 then []
  else List.replicate periods_per_year.toNat (annual_amount / (periods_per_year : ℚ))

/-- The inner pay-period loop of compute_projection_one_line
(Internal_Calc.py lines 297-299): for each installment c of the schedule,
total = total * (1 + r_period) + c. -/
def runPeriods (r_period : ℚ) (schedule : List ℚ) (total : ℚ) : ℚ :=
  schedule.foldl (fun t c => t * (1 + r_period) + c) total

/-- One iteration of the yearly loop of compute_projection_one_line
(Internal_Calc.py lines 292-299): current_salary = salary
* (1 + salary_growth) ** (yr - 1), annual_contrib_amount = current_salary
* annual_contrib_rate, then the pay-period loop over
build_pay_period_schedule. -/
def yearUpdate (salary salary_growth annual_contrib_rate : ℚ)
    (periods_per_year : ℤ) (r_period : ℚ) (yr : ℕ) (total : ℚ) : ℚ :=
  let current_salary := salary * (1 + salary_growth) ^ (yr - 1)
  let annual_contrib_amount := current_salary * annual_contrib_rate
  runPeriods r_period
    (build_pay_period_schedule annual_contrib_amount periods_per_year) total

/-- The running total of compute_projection_one_line after yr full years
(Internal_Calc.py lines 288-302): total starts at balance and each year is
transformed by yearUpdate. -/
def oneLineTotals (salary balance salary_growth annual_contrib_rate : ℚ)
    (periods_per_year : ℤ) (r_period : ℚ) : ℕ → ℚ
  | 0 => balance
  | yr + 1 =>
      yearUpdate salary salary_growth annual_contrib_rate periods_per_year
        r_period (yr + 1)
        (oneLineTotals salary balance salary_growth annual_contrib_rate
          periods_per_year r_period yr)

/-- Result frame of compute_projection_one_line (Internal_Calc.py lines 276
and 304): columns age and value. -/
structure OneLineFrame where
  age : List ℤ
  value : List ℚ
  deriving DecidableEq

/-- compute_projection_one_line (Internal_Calc.py lines 272-304).  The cfg
dictionary is passed as its derived values (see the header); r_period is the
source's (1 + model_return) ** (1 / periods_per_year) - 1.  If
age >= target_age or salary <= 0 the single-point frame is returned;
otherwise ages = [age, age + 1, ..., age + years] and the value at index yr
is the running total after yr years. -/
def compute_projection_one_line (age target_age : ℤ) (salary balance : ℚ)
    (salary_growth annual_contrib_rate : ℚ) (periods_per_year : ℤ)
    (r_period : ℚ) : OneLineFrame :=
  if age ≥ target_age ∨ salary ≤ 0 then { age := [age], value := [balance] }
  else
    let years := (target_age - age).toNat
    { age := (List.range (years + 1)).map (fun k : ℕ => age + (k : ℤ)),
      value := (List.range (years + 1)).map
        (oneLineTotals salary balance salary_growth annual_contrib_rate
          periods_per_year r_period) }

/-- fv_contribs of the appended standalone script (Internal_Calc.py
lines 579-584): if rm == 0 the linear sum monthly_contrib * n_months,
otherwise monthly_contrib * (((1 + rm) ** n_months - 1) / rm), the division
by rm being pydiv (its rm = 0 case is unreachable thanks to the guard). -/
def fv_contribs (monthly_contrib : ℚ) (n_months : ℕ) (rm : ℚ) : Option ℚ :=
  if rm = 0 then some (monthly_contrib * n_months)
  else (pydiv ((1 + rm) ^ n_months - 1) rm).map (fun q => monthly_contrib * q)

/-- Whitespace set of Python's str.strip() for ASCII text. -/
def pyIsSpace (c : Char) : Bool :=
  c = ' ' || c = '\t' || c = '\n' || c = '\r' || c = '\x0b' || c = '\x0c'

/-- Python's str.replace(",", "") on the character list of a string: every
comma is removed. -/
def removeCommas (l : List Char) : List Char :=
  l.filter (fun c => c ≠ ',')

/-- Python's str.strip() on the character list of a string: leading and
trailing whitespace is dropped. -/
def pyStrip (l : List Char) : List Char :=
  ((l.dropWhile pyIsSpace).reverse.dropWhile pyIsSpace).reverse

/-- Value of a list of decimal digits read left to right. -/
def digitsVal (ds : List Char) : ℕ :=
  ds.foldl (fun a c => 10 * a + (c.toNat - 48)) 0

/-- Syntactic parts of a Python float literal: sign, integer digits, fraction
digits, exponent sign and exponent digits (no exponent is encoded as a
positive empty exponent, giving the factor 10 ^ 0 = 1). -/
structure FloatParts where
  neg : Bool
  ip : List Char
  fp : List Char
  expNeg : Bool
  expDigits : List Char
  deriving DecidableEq

/-- Recognizer for the exponent tail of a float literal: empty, or e/E with
an optional sign and at least one digit. -/
def pyFloatExpParts (rest : List Char) : Option (Bool × List Char) :=
  match rest with
  | [] => some (false, [])
  | e :: r =>
      if e = 'e' ∨ e = 'E' then
        let sr : Bool × List Char := match r with
          | '+' :: r2 => (false, r2)
          | '-' :: r2 => (true, r2)
          | _ => (false, r)
        let ed := sr.2.takeWhile Char.isDigit
        let tail := sr.2.dropWhile Char.isDigit
        if ed.isEmpty ∨ ¬ tail.isEmpty then none else some (sr.1, ed)
      else none

/-- Recognizer for a Python float literal on the character list of a string:
an optional sign, then decimal digits with at most one point (at least one
digit overall), then an optional e/E exponent; anything else is none,
modelling the ValueError float() raises.  The recognizer covers the finite
decimal literals the calculator's text inputs produce; the special forms
inf, nan, underscores in digits and surrounding whitespace (stripped by the
caller here) are outside the model. -/
def pyFloatParts (l : List Char) : Option FloatParts :=
  let sl : Bool × List Char := match l with
    | '+' :: rest => (false, rest)
    | '-' :: rest => (true, rest)
    | _ => (false, l)
  let ip := sl.2.takeWhile Char.isDigit
  let r1 := sl.2.dropWhile Char.isDigit
  match r1 with
  | '.' :: r2 =>
      let fp := r2.takeWhile Char.isDigit
      let r3 := r2.dropWhile Char.isDigit
      if ip.isEmpty ∧ fp.isEmpty then none
      else (pyFloatExpParts r3).map (fun e => ⟨sl.1, ip, fp, e.1, e.2⟩)
  | _ =>
      if ip.isEmpty then none
      else (pyFloatExpParts r1).map (fun e => ⟨sl.1, ip, [], e.1, e.2⟩)

/-- Exact rational value of a recognized float literal. -/
def pyFloatValue (p : FloatParts) : ℚ :=
  let mant : ℚ := (if p.neg then -1 else 1) *
    ((digitsVal p.ip : ℚ) + (digitsVal p.fp : ℚ) / 10 ^ p.fp.length)
  if p.expNeg then mant / 10 ^ digitsVal p.expDigits
  else mant * 10 ^ digitsVal p.expDigits

/-- Model of Python's float() constructor on the character list of a string:
the exact rational value of a recognized decimal literal, or Except.error
modelling the ValueError raised on anything unrecognized. -/
def pyFloat (l : List Char) : Except Unit ℚ :=
  match pyFloatParts l with
  | some p => Except.ok (pyFloatValue p)
  | none => Except.error ()

/-- parse_number (retirement_calculator.py lines 245-249, identically
Internal_Calc.py lines 243-247): float(str(x).replace(",", "").strip())
inside try/except, returning None when float() raises.  The input is the
character list of str(x). -/
def parse_number (x : List Char) : Option ℚ :=
  match pyFloat (pyStrip (removeCommas x)) with
  | Except.ok v => some v
  | Except.error _ => none

theorem pydiv_of_ne {b : ℚ} (a : ℚ) (hb : b ≠ 0) : pydiv a b = some (a / b) := by
  simp [pydiv, hb]

theorem project_of_ne {mr : ℚ} (hmr : mr ≠ 1) (start : ℚ) (contribs : List ℚ)
    (np : ℕ) :
    project mr start contribs np =
      some ((start :: projectLoop (mr ^ 12) ((mr ^ 12 - 1) / (mr - 1)) start
        contribs).take np) := by
  have h : mr - 1 ≠ 0 := sub_ne_zero_of_ne hmr
  simp [project, pydiv_of_ne _ h]

theorem projectLoop_length (mf cm : ℚ) :
    ∀ (contribs : List ℚ) (t : ℚ),
      (projectLoop mf cm t contribs).length = contribs.length := by
  intro contribs
  induction contribs with
  | nil => intro t; simp [projectLoop]
  | cons y rest ih => intro t; simp [projectLoop, ih]

theorem chain_take {α : Type} {R : α → α → Prop} :
    ∀ (l : List α) (n : ℕ), List.Chain' R l → List.Chain' R (l.take n) := by
  intro l
  induction l with
  | nil => intro n _; simp
  | cons a t ih =>
    intro n h
    cases n with
    | zero => simp
    | succ m =>
      rw [List.take_succ_cons]
      cases t with
      | nil => simp
      | cons b t2 =>
        rw [List.chain'_cons] at h
        cases m with
        | zero => simp
        | succ k =>
          rw [List.take_succ_cons, List.chain'_cons]
          refine ⟨h.1, ?_⟩
          have hh := ih (k + 1) h.2
          rwa [List.take_succ_cons] at hh

theorem forall2_take {α : Type} {R : α → α → Prop} {l1 l2 : List α}
    (h : List.Forall₂ R l1 l2) : ∀ n, List.Forall₂ R (l1.take n) (l2.take n) := by
  induction h with
  | nil => intro n; simp
  | cons ha ht ih =>
    intro n
    cases n with
    | zero => simp
    | succ m =>
      rw [List.take_succ_cons, List.take_succ_cons]
      exact List.Forall₂.cons ha (ih m)

theorem forall2_getLastD {α : Type} {R : α → α → Prop} :
    ∀ {l1 l2 : List α} {a b : α}, List.Forall₂ R l1 l2 → R a b →
      R (l1.getLastD a) (l2.getLastD b) := by
  intro l1 l2 a b h hab
  induction h generalizing a b with
  | nil => simpa using hab
  | cons ha ht ih => rw [List.getLastD_cons, List.getLastD_cons]; exact ih ha

theorem chain_map_range {α : Type} {R : α → α → Prop} (f : ℕ → α) (n : ℕ)
    (hf : ∀ k, R (f k) (f (k + 1))) :
    List.Chain' R ((List.range n).map f) := by
  rcases n with _ | m
  · simp
  · rw [List.chain'_map]
    exact (List.chain'_range_succ (fun a b => R (f a) (f b)) m).mpr
      (fun k _ => hf k)

theorem projectLoop_chain_lt {mf cm : ℚ} (hmf : 1 < mf) (hcm : 0 ≤ cm) :
    ∀ (contribs : List ℚ) (total : ℚ), 0 < total → (∀ y ∈ contribs, 0 ≤ y) →
      List.Chain' (· < ·) (total :: projectLoop mf cm total contribs) := by
  intro contribs
  induction contribs with
  | nil => intro t _ _; simp [projectLoop]
  | cons y rest ih =>
    intro t ht hy
    have hy0 : 0 ≤ y := hy y (List.mem_cons_self y rest)
    have hc0 : 0 ≤ y / 12 * cm :=
      mul_nonneg (div_nonneg hy0 (by norm_num)) hcm
    have hstep : t < t * mf + y / 12 * cm := by nlinarith
    have hpos : 0 < t * mf + y / 12 * cm := lt_trans ht hstep
    have htail := ih (t * mf + y / 12 * cm) hpos
      (fun z hz => hy z (List.mem_cons_of_mem y hz))
    simp only [projectLoop]
    exact List.chain'_cons.mpr ⟨hstep, htail⟩

theorem projectLoop_chain_le {mf cm : ℚ} (hmf : 1 ≤ mf) (hcm : 0 ≤ cm) :
    ∀ (contribs : List ℚ) (total : ℚ), 0 ≤ total → (∀ y ∈ contribs, 0 ≤ y) →
      List.Chain' (· ≤ ·) (total :: projectLoop mf cm total contribs) := by
  intro contribs
  induction contribs with
  | nil => intro t _ _; simp [projectLoop]
  | cons y rest ih =>
    intro t ht hy
    have hy0 : 0 ≤ y := hy y (List.mem_cons_self y rest)
    have hc0 : 0 ≤ y / 12 * cm :=
      mul_nonneg (div_nonneg hy0 (by norm_num)) hcm
    have hstep : t ≤ t * mf + y / 12 * cm := by nlinarith
    have hpos : 0 ≤ t * mf + y / 12 * cm := le_trans ht hstep
    have htail := ih (t * mf + y / 12 * cm) hpos
      (fun z hz => hy z (List.mem_cons_of_mem y hz))
    simp only [projectLoop]
    exact List.chain'_cons.mpr ⟨hstep, htail⟩

theorem projectLoop_forall2 {mf1 mf2 cm1 cm2 : ℚ} (hmf1 : 0 ≤ mf1)
    (hmf : mf1 ≤ mf2) (hcm1 : 0 ≤ cm1) (hcm : cm1 ≤ cm2) :
    ∀ (contribs : List ℚ) (t1 t2 : ℚ), 0 ≤ t1 → t1 ≤ t2 →
      (∀ y ∈ contribs, 0 ≤ y) →
      List.Forall₂ (· ≤ ·) (projectLoop mf1 cm1 t1 contribs)
        (projectLoop mf2 cm2 t2 contribs) := by
  intro contribs
  induction contribs with
  | nil => intro t1 t2 _ _ _; simp [projectLoop]
  | cons y rest ih =>
    intro t1 t2 ht1 h12 hy
    have hy0 : 0 ≤ y := hy y (List.mem_cons_self y rest)
    have h1 : t1 * mf1 ≤ t2 * mf2 :=
      mul_le_mul h12 hmf hmf1 (le_trans ht1 h12)
    have h2 : y / 12 * cm1 ≤ y / 12 * cm2 :=
      mul_le_mul_of_nonneg_left hcm (div_nonneg hy0 (by norm_num))
    have hstep : t1 * mf1 + y / 12 * cm1 ≤ t2 * mf2 + y / 12 * cm2 := by
      linarith
    have hpos : 0 ≤ t1 * mf1 + y / 12 * cm1 :=
      add_nonneg (mul_nonneg ht1 hmf1)
        (mul_nonneg (div_nonneg hy0 (by norm_num)) hcm1)
    simp only [projectLoop]
    exact List.Forall₂.cons hstep
      (ih _ _ hpos hstep (fun z hz => hy z (List.mem_cons_of_mem y hz)))

theorem cm_eq_geom {mr : ℚ} (hmr : mr ≠ 1) :
    (mr ^ 12 - 1) / (mr - 1) = ∑ i ∈ Finset.range 12, mr ^ i :=
  (geom_sum_eq hmr 12).symm

theorem cm_nonneg {mr : ℚ} (h0 : 0 ≤ mr) (hmr : mr ≠ 1) :
    0 ≤ (mr ^ 12 - 1) / (mr - 1) := by
  rw [cm_eq_geom hmr]
  exact Finset.sum_nonneg (fun i _ => pow_nonneg h0 i)

theorem cm_mono {mr1 mr2 : ℚ} (h0 : 0 ≤ mr1) (h12 : mr1 ≤ mr2)
    (hm1 : mr1 ≠ 1) (hm2 : mr2 ≠ 1) :
    (mr1 ^ 12 - 1) / (mr1 - 1) ≤ (mr2 ^ 12 - 1) / (mr2 - 1) := by
  rw [cm_eq_geom hm1, cm_eq_geom hm2]
  exact Finset.sum_le_sum (fun i _ => pow_le_pow_left₀ h0 h12 i)

theorem runPeriods_zero :
    ∀ (sched : List ℚ) (t : ℚ), runPeriods 0 sched t = t + sched.sum := by
  intro sched
  induction sched with
  | nil => intro t; simp [runPeriods]
  | cons c rest ih =>
    intro t
    have h := ih (t * (1 + 0) + c)
    simp only [runPeriods, List.foldl_cons] at h ⊢
    rw [h, List.sum_cons]; ring

theorem runPeriods_ge {r : ℚ} (hr : 0 ≤ r) :
    ∀ (sched : List ℚ) (t : ℚ), 0 ≤ t → (∀ c ∈ sched, 0 ≤ c) →
      t ≤ runPeriods r sched t ∧ 0 ≤ runPeriods r sched t := by
  intro sched
  induction sched with
  | nil => intro t ht _; exact ⟨le_refl t, ht⟩
  | cons c rest ih =>
    intro t ht hc
    have hc0 : 0 ≤ c := hc c (List.mem_cons_self c rest)
    have hstep : t ≤ t * (1 + r) + c := by nlinarith
    have hpos : 0 ≤ t * (1 + r) + c := le_trans ht hstep
    have h := ih (t * (1 + r) + c) hpos
      (fun z hz => hc z (List.mem_cons_of_mem c hz))
    simp only [runPeriods, List.foldl_cons] at h ⊢
    exact ⟨le_trans hstep h.1, h.2⟩

theorem schedule_sum {P : ℤ} (a : ℚ) (hP : 0 < P) :
    (build_pay_period_schedule a P).sum = a := by
  rw [build_pay_period_schedule, if_neg (by omega)]
  rw [List.sum_replicate, nsmul_eq_mul]
  have hptn : ((P.toNat : ℚ)) = (P : ℚ) := by
    exact_mod_cast congrArg (fun z : ℤ => (z : ℚ)) (Int.toNat_of_nonneg hP.le)
  have hp0 : (P : ℚ) ≠ 0 := Int.cast_ne_zero.mpr (by omega)
  rw [hptn]
  field_simp

theorem schedule_nonneg {P : ℤ} {a : ℚ} (ha : 0 ≤ a) :
    ∀ c ∈ build_pay_period_schedule a P, 0 ≤ c := by
  intro c hc
  rw [build_pay_period_schedule] at hc
  by_cases h : P ≤ 0
  · rw [if_pos h] at hc; simp at hc
  · rw [if_neg h] at hc
    have hcv := List.eq_of_mem_replicate hc
    subst hcv
    have hp : (0 : ℚ) ≤ (P : ℚ) := by exact_mod_cast (by omega : (0 : ℤ) ≤ P)
    exact div_nonneg ha hp

theorem annual_amount_nonneg {salary g crate : ℚ} (hs : 0 ≤ salary)
    (hg : 0 ≤ g) (hc : 0 ≤ crate) (k : ℕ) :
    0 ≤ salary * (1 + g) ^ k * crate :=
  mul_nonneg (mul_nonneg hs (pow_nonneg (by linarith) k)) hc

theorem oneLineTotals_nonneg {salary balance g crate : ℚ} {P : ℤ} {r : ℚ}
    (hs : 0 ≤ salary) (hb : 0 ≤ balance) (hg : 0 ≤ g) (hc : 0 ≤ crate)
    (hr : 0 ≤ r) :
    ∀ n, 0 ≤ oneLineTotals salary balance g crate P r n := by
  intro n
  induction n with
  | zero => exact hb
  | succ m ih =>
    show 0 ≤ yearUpdate salary g crate P r (m + 1)
      (oneLineTotals salary balance g crate P r m)
    simp only [yearUpdate]
    exact (runPeriods_ge hr _ _ ih
      (schedule_nonneg (annual_amount_nonneg hs hg hc _))).2

theorem oneLineTotals_le_succ {salary balance g crate : ℚ} {P : ℤ} {r : ℚ}
    (hs : 0 ≤ salary) (hb : 0 ≤ balance) (hg : 0 ≤ g) (hc : 0 ≤ crate)
    (hr : 0 ≤ r) (n : ℕ) :
    oneLineTotals salary balance g crate P r n ≤
      oneLineTotals salary balance g crate P r (n + 1) := by
  have h0 := @oneLineTotals_nonneg salary balance g crate P r hs hb hg hc hr n
  show _ ≤ yearUpdate salary g crate P r (n + 1)
    (oneLineTotals salary balance g crate P r n)
  simp only [yearUpdate]
  exact (runPeriods_ge hr _ _ h0
    (schedule_nonneg (annual_amount_nonneg hs hg hc _))).1

theorem oneLineTotals_zero_rate {salary balance g crate : ℚ} {P : ℤ}
    (hP : 0 < P) :
    ∀ n, oneLineTotals salary balance g crate P 0 n =
      balance + ∑ k ∈ Finset.range n, salary * (1 + g) ^ k * crate := by
  intro n
  induction n with
  | zero => simp [oneLineTotals]
  | succ m ih =>
    show yearUpdate salary g crate P 0 (m + 1)
        (oneLineTotals salary balance g crate P 0 m) = _
    simp only [yearUpdate]
    rw [runPeriods_zero, schedule_sum _ hP, ih, Finset.sum_range_succ]
    have hm : m + 1 - 1 = m := rfl
    rw [hm]
    ring

theorem computeProjection_degenerate {mr1 mr2 : ℚ} {age : ℤ} {salary : ℚ}
    (h : age ≥ 65 ∨ salary ≤ 0) (balance : ℚ) :
    computeProjection mr1 mr2 age salary balance =
      some { age := [age], baseline := [balance], with_help := [balance] } := by
  rw [computeProjection, if_pos h]

theorem computeProjection_of_lt {mr1 mr2 : ℚ} (h1 : mr1 ≠ 1) (h2 : mr2 ≠ 1)
    {age : ℤ} {salary : ℚ} (hage : age < 65) (hsal : 0 < salary) (balance : ℚ) :
    computeProjection mr1 mr2 age salary balance =
      some { age := (List.range ((65 - age).toNat + 1)).map
               (fun k : ℕ => age + (k : ℤ)),
             baseline := (balance :: projectLoop (mr1 ^ 12)
                 ((mr1 ^ 12 - 1) / (mr1 - 1)) balance
                 ((salariesOf salary ((65 - age).toNat + 1)).map
                   (fun s => s * contribution_rate))).take
               ((65 - age).toNat + 1),
             with_help := (balance :: projectLoop (mr2 ^ 12)
                 ((mr2 ^ 12 - 1) / (mr2 - 1)) balance
                 ((salariesOf salary ((65 - age).toNat + 1)).map
                   (fun s => s * contribution_rate))).take
               ((65 - age).toNat + 1) } := by
  simp only [computeProjection]
  rw [if_neg (by push_neg; exact ⟨by omega, hsal⟩)]
  rw [project_of_ne h1, project_of_ne h2]
  rfl

theorem one_line_degenerate {age target_age : ℤ} {salary : ℚ}
    (h : age ≥ target_age ∨ salary ≤ 0) (balance g crate : ℚ) (P : ℤ) (r : ℚ) :
    compute_projection_one_line age target_age salary balance g crate P r =
      { age := [age], value := [balance] } := by
  rw [compute_projection_one_line, if_pos h]

theorem one_line_of_lt {age target_age : ℤ} {salary : ℚ}
    (hage : age < target_age) (hsal : 0 < salary) (balance g crate : ℚ)
    (P : ℤ) (r : ℚ) :
    compute_projection_one_line age target_age salary balance g crate P r =
      { age := (List.range ((target_age - age).toNat + 1)).map
          (fun k : ℕ => age + (k : ℤ)),
        value := (List.range ((target_age - age).toNat + 1)).map
          (oneLineTotals salary balance g crate P r) } := by
  rw [compute_projection_one_line, if_neg (by push_neg; exact ⟨by omega, hsal⟩)]

theorem annualContribs_nonneg {salary : ℚ} (hs : 0 ≤ salary) (np : ℕ) :
    ∀ y ∈ (salariesOf salary np).map (fun s => s * contribution_rate),
      0 ≤ y := by
  intro y hy
  rw [List.mem_map] at hy
  obtain ⟨s, hs', rfl⟩ := hy
  rw [salariesOf, List.mem_map] at hs'
  obtain ⟨k, _, rfl⟩ := hs'
  exact mul_nonneg
    (mul_nonneg hs (pow_nonneg (by norm_num [salary_growth_rate]) k))
    (by norm_num [contribution_rate])

theorem runPeriods_replicate (r c : ℚ) :
    ∀ (N : ℕ) (s : ℚ), runPeriods r (List.replicate N c) s =
      s * (1 + r) ^ N + c * ∑ i ∈ Finset.range N, (1 + r) ^ i := by
  intro N
  induction N with
  | zero => intro s; simp [runPeriods]
  | succ m ih =>
    intro s
    rw [List.replicate_succ]
    have h := ih (s * (1 + r) + c)
    simp only [runPeriods, List.foldl_cons] at h ⊢
    rw [h, Finset.sum_range_succ]
    ring

/-- C1, counterexample.  The claim asserts that at a zero annual return rate
the projection engine produces a result without division by zero, the
contribution-growth annuity factor falling back to the plain linear sum.  In
the helper project of compute_projection a zero annual rate gives
monthly_rate = (1 + 0) ** (1 / 12) = 1, and the unguarded ratio formula
(monthly_factor - 1) / (monthly_rate - 1) divides zero by zero: Python
raises ZeroDivisionError and no result is produced — there is no fallback.
Concrete input: start 0, one yearly contribution 12, num_points 2, zero
rate. -/
theorem C1_counterexample : project 1 0 [12] 2 = none := by
  norm_num [project, pydiv]

/-- C1, amended.  The zero-rate fallback and the no-exception guarantee hold
for the engine code that guards or avoids the ratio formula: fv_contribs
returns the plain linear sum monthly_contrib * n_months when rm = 0 and
returns a value for every input (its ratio branch divides by rm ≠ 0), and
project returns a value whenever its monthly rate differs from 1 — in
particular at its only call sites, which fix the annual rates at 0.0819 and
0.1151, both giving monthly rates above 1.  The per-period engine
compute_projection_one_line performs no division in its loop at all.  Only
the unguarded helper project violates the claim at a zero rate
(C1_counterexample). -/
theorem C1_thm (mc : ℚ) (n : ℕ) (rm mr start : ℚ) (contribs : List ℚ)
    (np : ℕ) (hmr : mr ≠ 1) :
    fv_contribs mc n 0 = some (mc * n) ∧
    (fv_contribs mc n rm).isSome = true ∧
    (project mr start contribs np).isSome = true := by
  refine ⟨by simp [fv_contribs], ?_, ?_⟩
  · by_cases h : rm = 0
    · subst h; simp [fv_contribs]
    · simp [fv_contribs, h, pydiv_of_ne _ h]
  · rw [project_of_ne hmr]; rfl

/-- C1, witness for C1_thm at concrete inputs. -/
theorem C1_witness :
    fv_contribs 3 5 0 = some 15 ∧ (fv_contribs 3 5 (1 / 2)).isSome = true ∧
      (project 2 0 [12] 2).isSome = true := by
  have h := C1_thm 3 5 (1 / 2) 2 0 [12] 2 (by norm_num)
  refine ⟨?_, h.2.1, h.2.2⟩
  rw [h.1]; norm_num

/-- C2, counterexample.  The claim quantifies over every per-period rate r,
including r = 0.  At r = 0 the closed-form yearly update of project
(monthly_rate = 1) produces no balance at all — the contrib_multiplier
division raises ZeroDivisionError — while the iterative per-period loop of
compute_projection_one_line happily returns start + N * c (here
5 + 12 * 2 = 29), so the two do not compute the same balance for every
rate. -/
theorem C2_counterexample :
    project 1 5 [24] 2 = none ∧
    runPeriods 0 (build_pay_period_schedule 24 12) 5 = 29 := by
  constructor
  · norm_num [project, pydiv]
  · norm_num [runPeriods, build_pay_period_schedule, List.replicate]

/-- C2, amended.  For every nonzero per-period rate (monthly_rate ≠ 1) one
year of the closed-form engine equals the direct summation
start * mr ^ 12 + (yearly / 12) * Σ i < 12, mr ^ i, and for every rate r
(zero included) the iterative per-period loop over N equal end-of-period
contributions equals the direct summation
s * (1 + r) ^ N + c * Σ i < N, (1 + r) ^ i; hence for nonzero rates the
closed-form yearly update and the iterative loop (N = 12, c = yearly / 12,
1 + r = mr) compute the same balance. -/
theorem C2_thm (mr start yearly s c r : ℚ) (N : ℕ) (hmr : mr ≠ 1) :
    project mr start [yearly] 2 =
      some [start, start * mr ^ 12 +
        yearly / 12 * ∑ i ∈ Finset.range 12, mr ^ i] ∧
    runPeriods r (List.replicate N c) s =
      s * (1 + r) ^ N + c * ∑ i ∈ Finset.range N, (1 + r) ^ i ∧
    project mr start [yearly] 2 =
      some [start, runPeriods (mr - 1) (List.replicate 12 (yearly / 12)) start] := by
  have hbase : project mr start [yearly] 2 =
      some [start, start * mr ^ 12 +
        yearly / 12 * ∑ i ∈ Finset.range 12, mr ^ i] := by
    rw [project_of_ne hmr]
    simp only [projectLoop, List.take_succ_cons, List.take_nil]
    rw [cm_eq_geom hmr]
  refine ⟨hbase, runPeriods_replicate r c N s, ?_⟩
  rw [hbase, runPeriods_replicate]
  have h1 : 1 + (mr - 1) = mr := by ring
  rw [h1]

/-- C2, witness for C2_thm at mr = 2, start = 1, yearly = 24, and for the
loop at r = 0, c = 2, s = 5, N = 12. -/
theorem C2_witness :
    project 2 1 [24] 2 =
      some [1, 1 * 2 ^ 12 + 24 / 12 * ∑ i ∈ Finset.range 12, (2 : ℚ) ^ i] ∧
    runPeriods 0 (List.replicate 12 2) 5 =
      5 * (1 + 0) ^ 12 + 2 * ∑ i ∈ Finset.range 12, ((1 : ℚ) + 0) ^ i ∧
    project 2 1 [24] 2 =
      some [1, runPeriods (2 - 1) (List.replicate 12 (24 / 12)) 1] :=
  C2_thm 2 1 24 5 2 0 12 (by norm_num)

/-- C4: when current_age >= target_age or current_salary <= 0, both engines
return the single-point frame ages = [current_age], balances =
[current_balance] for every scenario, as a normal return (some frame /
a frame, never an error). -/
theorem C4_thm (mr1 mr2 : ℚ) (age : ℤ) (salary balance : ℚ)
    (age2 target2 : ℤ) (salary2 balance2 g crate : ℚ) (P : ℤ) (r : ℚ)
    (h : age ≥ 65 ∨ salary ≤ 0) (h2 : age2 ≥ target2 ∨ salary2 ≤ 0) :
    computeProjection mr1 mr2 age salary balance =
      some { age := [age], baseline := [balance], with_help := [balance] } ∧
    compute_projection_one_line age2 target2 salary2 balance2 g crate P r =
      { age := [age2], value := [balance2] } :=
  ⟨computeProjection_degenerate h balance,
   one_line_degenerate h2 balance2 g crate P r⟩

/-- C4, witness for C4_thm: age 70 with target 65, and a zero salary. -/
theorem C4_witness :
    computeProjection 2 3 70 50000 1000 =
      some { age := [70], baseline := [1000], with_help := [1000] } ∧
    compute_projection_one_line 30 65 0 500 (3 / 100) (124 / 1000) 26 (1 / 100) =
      { age := [30], value := [500] } :=
  C4_thm 2 3 70 50000 1000 30 65 0 500 (3 / 100) (124 / 1000) 26 (1 / 100)
    (Or.inl (by norm_num)) (Or.inr (by norm_num))

/-- C5: at a zero annual return rate (hence a zero per-period rate
r_period = (1 + 0) ** (1 / periods_per_year) - 1 = 0), with
current_age < target_age and current_salary > 0, the final balance of
compute_projection_one_line equals the starting balance plus the sum of the
annual contributions salary * (1 + g) ^ k * crate over years
k = 0 .. years - 1 — exactly, since each year deposits its schedule of
periods_per_year equal installments summing to the annual amount while the
zero rate leaves the balance otherwise unchanged. -/
theorem C5_thm (age target_age : ℤ) (salary balance g crate : ℚ) (P : ℤ)
    (hage : age < target_age) (hsal : 0 < salary) (hP : 0 < P) :
    (compute_projection_one_line age target_age salary balance g crate
        P 0).value.getLast? =
      some (balance + ∑ k ∈ Finset.range (target_age - age).toNat,
        salary * (1 + g) ^ k * crate) := by
  rw [one_line_of_lt hage hsal]
  show ((List.range ((target_age - age).toNat + 1)).map
    (oneLineTotals salary balance g crate P 0)).getLast? = _
  rw [List.range_succ, List.map_append, List.map_cons, List.map_nil,
    List.getLast?_concat]
  rw [oneLineTotals_zero_rate hP]

/-- C5, witness for C5_thm: age 60, target 65, salary 100, balance 50,
3 percent salary growth, contribution rate 1/10, 12 periods per year. -/
theorem C5_witness :
    (compute_projection_one_line 60 65 100 50 (3 / 100) (1 / 10)
        12 0).value.getLast? =
      some (50 + ∑ k ∈ Finset.range ((65 : ℤ) - 60).toNat,
        100 * (1 + 3 / 100) ^ k * (1 / 10)) :=
  C5_thm 60 65 100 50 (3 / 100) (1 / 10) 12 (by norm_num) (by norm_num)
    (by norm_num)

/-- C6: for current_age < target_age and current_salary > 0 the ages
sequence and every scenario's balances sequence have length
target_age - current_age + 1, identical across scenarios: both the baseline
and with_help columns of compute_projection (whose monthly rates differ
from 1, as the source's fixed rates do) and the age/value columns of
compute_projection_one_line. -/
theorem C6_thm (mr1 mr2 : ℚ) (age : ℤ) (salary balance : ℚ)
    (age2 target2 : ℤ) (salary2 balance2 g crate : ℚ) (P : ℤ) (r : ℚ)
    (h1 : mr1 ≠ 1) (h2 : mr2 ≠ 1) (hage : age < 65) (hsal : 0 < salary)
    (hage2 : age2 < target2) (hsal2 : 0 < salary2) :
    (∃ f, computeProjection mr1 mr2 age salary balance = some f ∧
      f.age.length = (65 - age).toNat + 1 ∧
      f.baseline.length = (65 - age).toNat + 1 ∧
      f.with_help.length = (65 - age).toNat + 1) ∧
    (compute_projection_one_line age2 target2 salary2 balance2 g crate
        P r).age.length = (target2 - age2).toNat + 1 ∧
    (compute_projection_one_line age2 target2 salary2 balance2 g crate
        P r).value.length = (target2 - age2).toNat + 1 := by
  refine ⟨⟨_, computeProjection_of_lt h1 h2 hage hsal balance, ?_, ?_, ?_⟩,
    ?_, ?_⟩
  · simp only [List.length_map, List.length_range]
  · simp [List.length_take, projectLoop_length, salariesOf]
  · simp [List.length_take, projectLoop_length, salariesOf]
  · rw [one_line_of_lt hage2 hsal2]
    simp only [List.length_map, List.length_range]
  · rw [one_line_of_lt hage2 hsal2]
    simp only [List.length_map, List.length_range]

/-- C6, witness for C6_thm at concrete inputs. -/
theorem C6_witness :
    (∃ f, computeProjection 2 3 40 50000 1000 = some f ∧
      f.age.length = ((65 : ℤ) - 40).toNat + 1 ∧
      f.baseline.length = ((65 : ℤ) - 40).toNat + 1 ∧
      f.with_help.length = ((65 : ℤ) - 40).toNat + 1) ∧
    (compute_projection_one_line 30 65 40000 500 (3 / 100) (124 / 1000)
        26 (1 / 100)).age.length = ((65 : ℤ) - 30).toNat + 1 ∧
    (compute_projection_one_line 30 65 40000 500 (3 / 100) (124 / 1000)
        26 (1 / 100)).value.length = ((65 : ℤ) - 30).toNat + 1 :=
  C6_thm 2 3 40 50000 1000 30 65 40000 500 (3 / 100) (124 / 1000) 26 (1 / 100)
    (by norm_num) (by norm_num) (by norm_num) (by norm_num) (by norm_num)
    (by norm_num)

/-- C7: for every input and every scenario the first element of the balances
sequence equals the input current_balance exactly — in the degenerate branch
it is the single point, and in the projection branch the source seeds
out = [start] before applying any growth or contribution.  For
compute_projection the monthly rates are required to differ from 1 (true of
the source's fixed rates), which makes the frame exist; the one-line engine
needs no hypothesis at all. -/
theorem C7_thm (mr1 mr2 : ℚ) (age : ℤ) (salary balance : ℚ)
    (age2 target2 : ℤ) (salary2 balance2 g crate : ℚ) (P : ℤ) (r : ℚ)
    (h1 : mr1 ≠ 1) (h2 : mr2 ≠ 1) :
    (∃ f, computeProjection mr1 mr2 age salary balance = some f ∧
      f.baseline.head? = some balance ∧ f.with_help.head? = some balance) ∧
    (compute_projection_one_line age2 target2 salary2 balance2 g crate
        P r).value.head? = some balance2 := by
  constructor
  · by_cases h : age ≥ 65 ∨ salary ≤ 0
    · exact ⟨_, computeProjection_degenerate h balance, rfl, rfl⟩
    · push_neg at h
      refine ⟨_, computeProjection_of_lt h1 h2 h.1 h.2 balance, ?_, ?_⟩
      · show ((balance :: _).take ((65 - age).toNat + 1)).head? = _
        rw [List.take_succ_cons]
        rfl
      · show ((balance :: _).take ((65 - age).toNat + 1)).head? = _
        rw [List.take_succ_cons]
        rfl
  · by_cases h : age2 ≥ target2 ∨ salary2 ≤ 0
    · rw [one_line_degenerate h]; rfl
    · push_neg at h
      rw [one_line_of_lt h.1 h.2]
      show ((List.range ((target2 - age2).toNat + 1)).map
        (oneLineTotals salary2 balance2 g crate P r)).head? = _
      rw [List.range_succ_eq_map, List.map_cons]
      rfl

/-- C7, witness for C7_thm at concrete inputs. -/
theorem C7_witness :
    (∃ f, computeProjection 2 3 40 50000 1000 = some f ∧
      f.baseline.head? = some 1000 ∧ f.with_help.head? = some 1000) ∧
    (compute_projection_one_line 30 65 40000 500 (3 / 100) (124 / 1000)
        26 (1 / 100)).value.head? = some 500 :=
  C7_thm 2 3 40 50000 1000 30 65 40000 500 (3 / 100) (124 / 1000) 26 (1 / 100)
    (by norm_num) (by norm_num)

/-- C3: with non-negative contribution rate and non-negative per-period
return rate (the source's r_period = (1 + R) ** (1 / P) - 1 is non-negative
exactly when the annual rate R is), non-negative starting balance, salary,
and salary growth (the data model requires salary_growth_rate ≥ 0), the
balance sequence of compute_projection_one_line is monotonically
non-decreasing at every adjacent pair, and so is any balance list produced
by the closed-form engine project at a monthly rate ≥ 1 from a non-negative
start and non-negative contributions. -/
theorem C3_thm (age target_age : ℤ) (salary balance g crate : ℚ) (P : ℤ)
    (r : ℚ) (hs : 0 ≤ salary) (hb : 0 ≤ balance) (hg : 0 ≤ g)
    (hc : 0 ≤ crate) (hr : 0 ≤ r) (mr start : ℚ) (contribs : List ℚ)
    (np : ℕ) (l : List ℚ) (hmr : 1 ≤ mr) (hstart : 0 ≤ start)
    (hcontribs : ∀ y ∈ contribs, 0 ≤ y)
    (hl : project mr start contribs np = some l) :
    List.Chain' (· ≤ ·) (compute_projection_one_line age target_age salary
      balance g crate P r).value ∧
    List.Chain' (· ≤ ·) l := by
  constructor
  · by_cases h : age ≥ target_age ∨ salary ≤ 0
    · rw [one_line_degenerate h]
      simp
    · push_neg at h
      rw [one_line_of_lt h.1 h.2]
      exact chain_map_range _ _
        (fun k => oneLineTotals_le_succ hs hb hg hc hr k)
  · have hmr1 : mr ≠ 1 := by
      intro he
      rw [he] at hl
      rw [show project 1 start contribs np = none from by
        norm_num [project, pydiv]] at hl
      exact Option.noConfusion hl
    rw [project_of_ne hmr1] at hl
    have hl2 := Option.some.inj hl
    rw [← hl2]
    exact chain_take _ np
      (projectLoop_chain_le (one_le_pow₀ hmr)
        (cm_nonneg (by linarith) hmr1) contribs start hstart hcontribs)

/-- C3, witness for C3_thm at concrete inputs. -/
theorem C3_witness :
    List.Chain' (· ≤ ·) (compute_projection_one_line 30 65 50000 1000
      (3 / 100) (124 / 1000) 26 (1 / 100)).value ∧
    List.Chain' (· ≤ ·) [(1 : ℚ), 8191] := by
  have h := C3_thm 30 65 50000 1000 (3 / 100) (124 / 1000) 26 (1 / 100)
    (by norm_num) (by norm_num) (by norm_num) (by norm_num) (by norm_num)
    2 1 [12] 2 [1, 8191] (by norm_num) (by norm_num)
    (by intro y hy; rw [List.mem_singleton] at hy; rw [hy]; norm_num)
    (by norm_num [project, pydiv, projectLoop])
  exact h

/-- C8: for the concrete input age 42, target 65, salary 84000, balance
76500 (the engine hardcodes the 3 percent salary growth, the 12.4 percent
contribution rate split 7.8 + 4.6, monthly compounding with end-of-period
monthly contributions), and any positive annual return — in particular
8.47 percent, whose monthly rate exceeds 1 — the year-0 balance is exactly
76500, the series has exactly 24 points with ages 42..65, and both balance
columns are strictly increasing at every step. -/
theorem C8_thm (mr1 mr2 : ℚ) (h1 : 1 < mr1) (h2 : 1 < mr2) :
    ∃ f, computeProjection mr1 mr2 42 84000 76500 = some f ∧
      f.age = (List.range 24).map (fun k : ℕ => 42 + (k : ℤ)) ∧
      f.age.length = 24 ∧ f.baseline.length = 24 ∧ f.with_help.length = 24 ∧
      f.baseline.head? = some 76500 ∧ f.with_help.head? = some 76500 ∧
      List.Chain' (· < ·) f.baseline ∧ List.Chain' (· < ·) f.with_help := by
  have e1 : mr1 ≠ 1 := ne_of_gt h1
  have e2 : mr2 ≠ 1 := ne_of_gt h2
  have hcp := computeProjection_of_lt e1 e2 (by norm_num : (42 : ℤ) < 65)
    (by norm_num : (0 : ℚ) < 84000) 76500
  rw [show ((65 : ℤ) - 42).toNat + 1 = 24 from by decide] at hcp
  refine ⟨_, hcp, rfl, ?_, ?_, ?_, ?_, ?_, ?_, ?_⟩
  · simp only [List.length_map, List.length_range]
  · simp [List.length_take, projectLoop_length, salariesOf]
  · simp [List.length_take, projectLoop_length, salariesOf]
  · rw [show (24 : ℕ) = 23 + 1 from rfl, List.take_succ_cons]
    rfl
  · rw [show (24 : ℕ) = 23 + 1 from rfl, List.take_succ_cons]
    rfl
  · exact chain_take _ 24
      (projectLoop_chain_lt (one_lt_pow₀ h1 (by norm_num))
        (cm_nonneg (by linarith) e1) _ 76500 (by norm_num)
        (annualContribs_nonneg (by norm_num) 24))
  · exact chain_take _ 24
      (projectLoop_chain_lt (one_lt_pow₀ h2 (by norm_num))
        (cm_nonneg (by linarith) e2) _ 76500 (by norm_num)
        (annualContribs_nonneg (by norm_num) 24))

/-- C8, witness for C8_thm at the concrete monthly rates 2 and 3. -/
theorem C8_witness :
    ∃ f, computeProjection 2 3 42 84000 76500 = some f ∧
      f.age = (List.range 24).map (fun k : ℕ => 42 + (k : ℤ)) ∧
      f.age.length = 24 ∧ f.baseline.length = 24 ∧ f.with_help.length = 24 ∧
      f.baseline.head? = some 76500 ∧ f.with_help.head? = some 76500 ∧
      List.Chain' (· < ·) f.baseline ∧ List.Chain' (· < ·) f.with_help :=
  C8_thm 2 3 (by norm_num) (by norm_num)

/-- C9: the source's two scenario rates satisfy r_no_help < r_help, and for
any two monthly rates 1 < mr1 ≤ mr2 (as obtained from annual rates
0 ≤ r1 ≤ r2 with r1 > 0; the 12-th root is monotone), any age, non-negative
salary and balance, the frame exists, the with_help series dominates the
baseline series pointwise, and the displayed final difference final_diff is
non-negative. -/
theorem C9_thm (mr1 mr2 : ℚ) (age : ℤ) (salary balance : ℚ)
    (h1 : 1 < mr1) (h12 : mr1 ≤ mr2) (hsal : 0 ≤ salary)
    (hbal : 0 ≤ balance) :
    r_no_help < r_help ∧
    ∃ f, computeProjection mr1 mr2 age salary balance = some f ∧
      List.Forall₂ (· ≤ ·) f.baseline f.with_help ∧ 0 ≤ final_diff f := by
  refine ⟨by norm_num [r_no_help, r_help], ?_⟩
  by_cases h : age ≥ 65 ∨ salary ≤ 0
  · refine ⟨_, computeProjection_degenerate h balance, ?_, ?_⟩
    · exact List.forall₂_same.mpr (fun x _ => le_refl x)
    · simp [final_diff]
  · push_neg at h
    have e1 : mr1 ≠ 1 := ne_of_gt h1
    have e2 : mr2 ≠ 1 := ne_of_gt (lt_of_lt_of_le h1 h12)
    have hfa : List.Forall₂ (· ≤ ·)
        ((balance :: projectLoop (mr1 ^ 12) ((mr1 ^ 12 - 1) / (mr1 - 1))
          balance ((salariesOf salary ((65 - age).toNat + 1)).map
            (fun s => s * contribution_rate))).take ((65 - age).toNat + 1))
        ((balance :: projectLoop (mr2 ^ 12) ((mr2 ^ 12 - 1) / (mr2 - 1))
          balance ((salariesOf salary ((65 - age).toNat + 1)).map
            (fun s => s * contribution_rate))).take ((65 - age).toNat + 1)) := by
      apply forall2_take
      apply List.Forall₂.cons (le_refl balance)
      exact projectLoop_forall2 (pow_nonneg (by linarith) 12)
        (pow_le_pow_left₀ (by linarith) h12 12) (cm_nonneg (by linarith) e1)
        (cm_mono (by linarith) h12 e1 e2) _ balance balance hbal (le_refl _)
        (annualContribs_nonneg hsal _)
    refine ⟨_, computeProjection_of_lt e1 e2 h.1 h.2 balance, hfa, ?_⟩
    have hlast := forall2_getLastD hfa (le_refl (0 : ℚ))
    simp only [final_diff]
    exact sub_nonneg.mpr hlast

/-- C9, witness for C9_thm at concrete inputs. -/
theorem C9_witness :
    r_no_help < r_help ∧
    ∃ f, computeProjection 2 3 40 50000 1000 = some f ∧
      List.Forall₂ (· ≤ ·) f.baseline f.with_help ∧ 0 ≤ final_diff f :=
  C9_thm 2 3 40 50000 1000 (by norm_num) (by norm_num) (by norm_num)
    (by norm_num)

/-- C10: parse_number never raises — it is a total function into Option —
and it returns exactly the value of Python's float() applied to the string
form of its input after removing commas and stripping surrounding
whitespace, and None exactly when that cleaned string does not parse as a
float (float() raises, and the try/except converts the exception to
None). -/
theorem C10_thm :
    (∀ (x : List Char) (v : ℚ),
      pyFloat (pyStrip (removeCommas x)) = Except.ok v →
        parse_number x = some v) ∧
    (∀ x : List Char,
      pyFloat (pyStrip (removeCommas x)) = Except.error () →
        parse_number x = none) := by
  constructor
  · intro x v h
    rw [parse_number, h]
  · intro x h
    rw [parse_number, h]

/-- C10, witness for C10_thm: the string "1,234" parses to 1234 after comma
removal, and the string "abc" yields None. -/
theorem C10_witness :
    parse_number ['1', ',', '2', '3', '4'] = some 1234 ∧
    parse_number ['a', 'b', 'c'] = none := by
  constructor
  · apply C10_thm.1
    rw [pyFloat, show pyFloatParts (pyStrip (removeCommas
        ['1', ',', '2', '3', '4'])) =
      some ⟨false, ['1', '2', '3', '4'], [], false, []⟩ from by decide]
    norm_num [pyFloatValue, show digitsVal ['1', '2', '3', '4'] = 1234 from
      by decide, show digitsVal [] = 0 from by decide]
  · apply C10_thm.2
    rw [pyFloat, show pyFloatParts (pyStrip (removeCommas ['a', 'b', 'c'])) =
      none from by decide]
